import Mathlib

/-! Shallow embedding of `relayer/chainsentry/chainsentry.go` (lava-config).

The Go `ChainSentry` keeps a sliding queue of block payloads (`blocksQueue`),
the last observed chain tip (`latestBlockNum`), and two configuration ints
(`finalizedBlockDistance`, `numFinalBlocks`).  The chain endpoint is reached
through two fetch helpers:

* `fetchLatestBlockNum` either returns a height with a nil error, or `-1`
  together with a non-nil error (transport / envelope-decode failures).
* `fetchBlockByNum` returns the decoded block payload; on ANY error it calls
  `log.Fatalln`, which terminates the whole process — it never actually
  returns a non-nil error to its caller.

We model the chain endpoint as an `Env`: whether the tip fetch succeeds and
with which value, which block numbers can be fetched, and the payload returned
for each number (per the interface contract, `eth_getBlockByNumber(n)` answers
with block `n`'s payload).  Go control flow that leaves the function abnormally
is made explicit in `GoOutcome`: `fatalExit` is a `log.Fatalln` process abort
and `panicked` a runtime panic (out-of-range slice or index); both carry the
heap state of the `ChainSentry` at the moment execution stops, so that partial
mutations are visible to the theorems.  Machine integers are modelled as `Int`
(no claim here depends on 64-bit wrap-around). -/

namespace Chainsentry

/-- A decoded block payload as stored in `blocksQueue`; the Go code stores the
whole JSON object (`map[string]interface{}`) and only ever reads its `"hash"`
field, so we retain the block number it answers for and its hash. -/
structure Block where
  number : Int
  hash : String
deriving DecidableEq

/-- The upstream chain endpoint as seen through the two fetch helpers. -/
structure Env where
  /-- Does `fetchLatestBlockNum` succeed (nil error)? -/
  tipOk : Bool
  /-- The height reported when the tip fetch succeeds. -/
  tipVal : Int
  /-- Does `fetchBlockByNum n` succeed?  On failure the Go code fatals. -/
  blockOk : Int → Bool
  /-- The payload returned for block `n` when the fetch succeeds. -/
  blockAt : Int → Block

/-- The mutable fields of the Go `ChainSentry` struct. -/
structure ChainSentry where
  finalizedBlockDistance : Int
  numFinalBlocks : Int
  latestBlockNum : Int
  blocksQueue : List Block
deriving DecidableEq

/-- Result of `fetchLatestBlockNum`: `ok v` is `(v, nil)`, `err` is `(-1, err)`. -/
inductive FetchResult where
  | ok (v : Int)
  | err
deriving DecidableEq

/-- How a Go method invocation on the sentry ends, together with the state of
the `ChainSentry` struct at that moment.  `ok` is a normal `return nil`;
`fatalExit` is `log.Fatalln` (process abort — nothing is returned, but the
heap already holds any partial mutation); `panicked` is a runtime panic. -/
inductive GoOutcome (σ : Type) where
  | ok (s : σ)
  | fatalExit (s : σ)
  | panicked (s : σ)
deriving DecidableEq

/-- A Go expression that either produces a value or panics. -/
inductive GoVal (α : Type) where
  | ok (a : α)
  | panicked
deriving DecidableEq

/-- `ChainSentry.fetchLatestBlockNum`: returns the decoded height, or `-1`
with a non-nil error when `ParseMsg`/`Send`/`Unmarshal` fail. -/
def fetchLatestBlockNum (env : Env) : FetchResult :=
  if env.tipOk then .ok env.tipVal else .err

/-- `ChainSentry.fetchBlockByNum`: `some` payload on success; `none` stands
for the `log.Fatalln` process abort taken on every error path (the function
never returns a non-nil error). -/
def fetchBlockByNum (env : Env) (blockNum : Int) : Option Block :=
  if env.blockOk blockNum then some (env.blockAt blockNum) else none

/-- `ChainSentry.GetLatestBlockNum` (atomic load of `latestBlockNum`). -/
def GetLatestBlockNum (cs : ChainSentry) : Int :=
  cs.latestBlockNum

/-- `ChainSentry.SetLatestBlockNum`. -/
def SetLatestBlockNum (cs : ChainSentry) (value : Int) : ChainSentry :=
  { cs with latestBlockNum := value }

/-- The shared fetch-and-append loop body of `Init` and
`catchupOnFinalizedBlocks`: starting at block number `start`, run `n`
iterations of `fetchBlockByNum` + `append`; a failed fetch aborts the process
(`fatalExit`) leaving the blocks appended so far in the queue. -/
def appendLoop (env : Env) : Int → Nat → List Block → GoOutcome (List Block)
  | _, 0, q => .ok q
  | start, n + 1, q =>
    match fetchBlockByNum env start with
    | none => .fatalExit q
    | some b => appendLoop env (start + 1) n (q ++ [b])

/-- The list of payloads fetched for block numbers `start, start+1, ...`
(`n` of them, ascending), used to describe a successful `appendLoop`. -/
def blockRange (env : Env) : Int → Nat → List Block
  | _, 0 => []
  | start, n + 1 => env.blockAt start :: blockRange env (start + 1) n

/-- Wrap up `Init` after its fetch loop finished with the given outcome. -/
def finishInit (cs : ChainSentry) : GoOutcome (List Block) → GoOutcome ChainSentry
  | .ok q => .ok { cs with blocksQueue := q }
  | .fatalExit q => .fatalExit { cs with blocksQueue := q }
  | .panicked q => .panicked { cs with blocksQueue := q }

/-- Body of `Init` once the tip was stored: `for i := latestBlock -
(distance+numFinal); i <= latestBlock - distance - 1; i++` fetch-and-append.
The iteration count of a Go `for i := lo; i <= hi; i++` loop is
`(hi + 1 - lo).toNat`. -/
def initGo (env : Env) (cs : ChainSentry) (latestBlock : Int) : GoOutcome ChainSentry :=
  finishInit cs
    (appendLoop env
      (latestBlock - (cs.finalizedBlockDistance + cs.numFinalBlocks))
      (latestBlock - cs.finalizedBlockDistance - 1 + 1 -
        (latestBlock - (cs.finalizedBlockDistance + cs.numFinalBlocks))).toNat
      cs.blocksQueue)

/-- `Init` path split on the tip fetch: an error is met with `log.Fatalln`
before anything was mutated; on success the tip is stored first
(`SetLatestBlockNum`) and then the fetch loop runs. -/
def initDispatch (env : Env) (cs : ChainSentry) : FetchResult → GoOutcome ChainSentry
  | .err => .fatalExit cs
  | .ok latestBlock => initGo env (SetLatestBlockNum cs latestBlock) latestBlock

/-- `ChainSentry.Init`. -/
def Init (env : Env) (cs : ChainSentry) : GoOutcome ChainSentry :=
  initDispatch env cs (fetchLatestBlockNum env)

/-- The height value `catchupOnFinalizedBlocks` works with: the fetched tip,
or the `-1` that `fetchLatestBlockNum` returned alongside the error (the error
itself is only logged and the cycle continues). -/
def reportedTip : FetchResult → Int
  | .ok v => v
  | .err => -1

/-- Tail of the catch-up cycle after the fetch loop: slice
`blocksQueue[(latestBlock - prevLatestBlock):]` (a Go slice `s[k:]` requires
`0 ≤ k ≤ len(s)`, panicking otherwise) and store the new tip.  A `fatalExit`
of the loop keeps the partially appended queue. -/
def finishCatchup (cs : ChainSentry) (latestBlock : Int) :
    GoOutcome (List Block) → GoOutcome ChainSentry
  | .fatalExit q => .fatalExit { cs with blocksQueue := q }
  | .panicked q => .panicked { cs with blocksQueue := q }
  | .ok q =>
    if 0 ≤ latestBlock - cs.latestBlockNum ∧
        latestBlock - cs.latestBlockNum ≤ (q.length : Int) then
      .ok { cs with
        blocksQueue := q.drop (latestBlock - cs.latestBlockNum).toNat,
        latestBlockNum := latestBlock }
    else
      .panicked { cs with blocksQueue := q }

/-- Body of `catchupOnFinalizedBlocks` given the height it will reconcile to:
no-op when it equals the stored tip, otherwise fetch blocks
`prevLatestBlock+1 .. latestBlock` and slice the queue head off. -/
def catchupGo (env : Env) (cs : ChainSentry) (latestBlock : Int) : GoOutcome ChainSentry :=
  if cs.latestBlockNum = latestBlock then
    .ok cs
  else
    finishCatchup cs latestBlock
      (appendLoop env (cs.latestBlockNum + 1)
        (latestBlock - cs.latestBlockNum).toNat cs.blocksQueue)

/-- `ChainSentry.catchupOnFinalizedBlocks` (one refresh cycle). -/
def catchupOnFinalizedBlocks (env : Env) (cs : ChainSentry) : GoOutcome ChainSentry :=
  catchupGo env cs (reportedTip (fetchLatestBlockNum env))

/-- The hash-collection loop of `GetLatestBlockData`: for `i` in
`[0, numFinalBlocks)`, key `latestBlockNum - distance - numFinal + i` maps to
`blocksQueue[i]["hash"]`; an index beyond the queue length panics. -/
def buildHashes (cs : ChainSentry) (latestBlockNum : Int) : Nat → GoVal (List (Int × String))
  | 0 => .ok []
  | n + 1 =>
    match buildHashes cs latestBlockNum n with
    | .panicked => .panicked
    | .ok acc =>
      if h : n < cs.blocksQueue.length then
        .ok (acc ++
          [(latestBlockNum - cs.finalizedBlockDistance - cs.numFinalBlocks + (n : Int),
            (cs.blocksQueue.get ⟨n, h⟩).hash)])
      else
        .panicked

/-- `ChainSentry.GetLatestBlockData`: reads the tip once and returns it
together with the keyed hash map (modelled as the association list in
insertion order; the Go function's error result is always nil). -/
def GetLatestBlockData (cs : ChainSentry) : GoVal (Int × List (Int × String)) :=
  match buildHashes cs (GetLatestBlockNum cs) cs.numFinalBlocks.toNat with
  | .ok hashes => .ok (GetLatestBlockNum cs, hashes)
  | .panicked => .panicked

/-- `DEFAULT_NUM_FINAL_BLOCKS`. -/
def DEFAULT_NUM_FINAL_BLOCKS : Int := 3

/-- `DEFAULT_NUM_SAVED_BLOCKS` (assigned to `finalizedBlockDistance`). -/
def DEFAULT_NUM_SAVED_BLOCKS : Int := 7

/-- `NewChainSentry`: fresh, uninitialized tracker (Go zero values for the
tip and the queue). -/
def NewChainSentry : ChainSentry :=
  { finalizedBlockDistance := DEFAULT_NUM_SAVED_BLOCKS
    numFinalBlocks := DEFAULT_NUM_FINAL_BLOCKS
    latestBlockNum := 0
    blocksQueue := [] }

/-- The block numbers held in the window, in queue order. -/
def windowNumbers (cs : ChainSentry) : List Int :=
  cs.blocksQueue.map Block.number

/-- Are adjacent list entries consecutive integers? -/
def contiguousNums : List Int → Bool
  | [] => true
  | [_] => true
  | a :: b :: rest => (b == a + 1) && contiguousNums (b :: rest)

/-! Concrete chains and states used by counterexamples and witnesses. -/

/-- A chain whose block-`n` payload is block `n` with a fixed hash string. -/
def honestBlock (n : Int) : Block :=
  { number := n, hash := "h" }

/-- Fully healthy endpoint reporting height `tip`. -/
def envAllOk (tip : Int) : Env :=
  { tipOk := true, tipVal := tip, blockOk := fun _ => true, blockAt := honestBlock }

/-- Endpoint reporting height `tip` whose fetch of block `bad` fails. -/
def envFailAt (tip bad : Int) : Env :=
  { tipOk := true, tipVal := tip, blockOk := fun n => !(n == bad), blockAt := honestBlock }

/-- Endpoint whose tip fetch fails (block fetches would succeed). -/
def envTipErr : Env :=
  { tipOk := false, tipVal := 0, blockOk := fun _ => true, blockAt := honestBlock }

/-- The steady state reached by `Init` against `envAllOk 100` with the default
configuration: tip `100`, window holding blocks `90`, `91`, `92`. -/
def csA : ChainSentry :=
  { finalizedBlockDistance := 7, numFinalBlocks := 3, latestBlockNum := 100,
    blocksQueue := [honestBlock 90, honestBlock 91, honestBlock 92] }

/-- The state after a successful refresh of `csA` to tip `102`: the queue ends
up holding blocks `92`, `101`, `102`. -/
def csB : ChainSentry :=
  { finalizedBlockDistance := 7, numFinalBlocks := 3, latestBlockNum := 102,
    blocksQueue := [honestBlock 92, honestBlock 101, honestBlock 102] }

/-- Heap state at the abort of a refresh of `csA` towards tip `102` whose
fetch of block `102` failed: block `101` is already appended. -/
def csAPartial : ChainSentry :=
  { csA with blocksQueue := csA.blocksQueue ++ [honestBlock 101] }

/-- Endpoint for a failing `Init`: tip `100`, block `91` cannot be fetched. -/
def envInitFail : Env :=
  envFailAt 100 91

/-- Heap state at the abort of `Init` against `envInitFail`: the tip is
already stored and block `90` already appended. -/
def csInitPartial : ChainSentry :=
  { NewChainSentry with latestBlockNum := 100, blocksQueue := [honestBlock 90] }

/-! General lemmas about the fetch-and-append loop and the hash loop. -/

theorem appendLoop_all_ok (env : Env) (hb : ∀ m : Int, env.blockOk m = true) :
    ∀ (n : Nat) (start : Int) (q : List Block),
      appendLoop env start n q = .ok (q ++ blockRange env start n) := by
  intro n
  induction n with
  | zero => intro start q; simp [appendLoop, blockRange]
  | succ m ih =>
    intro start q
    simp [appendLoop, blockRange, fetchBlockByNum, hb start, ih (start + 1) (q ++ [env.blockAt start])]

theorem appendLoop_ok_length (env : Env) :
    ∀ (n : Nat) (start : Int) (q q' : List Block),
      appendLoop env start n q = .ok q' → q'.length = q.length + n := by
  intro n
  induction n with
  | zero =>
    intro start q q' h
    simp [appendLoop] at h
    simp [h]
  | succ m ih =>
    intro start q q' h
    rw [appendLoop] at h
    cases hfb : fetchBlockByNum env start with
    | none => rw [hfb] at h; simp at h
    | some b =>
      rw [hfb] at h
      have := ih (start + 1) (q ++ [b]) q' h
      simp at this
      omega

theorem blockRange_length (env : Env) :
    ∀ (n : Nat) (start : Int), (blockRange env start n).length = n := by
  intro n
  induction n with
  | zero => intro start; rfl
  | succ m ih => intro start; simp [blockRange, ih]

theorem blockRange_getElem (env : Env) :
    ∀ (n : Nat) (start : Int) (i : Nat),
      (blockRange env start n)[i]? =
        if i < n then some (env.blockAt (start + (i : Int))) else none := by
  intro n
  induction n with
  | zero => intro start i; simp [blockRange]
  | succ m ih =>
    intro start i
    cases i with
    | zero => simp [blockRange]
    | succ j =>
      rw [blockRange]
      rw [List.getElem?_cons_succ, ih (start + 1) j]
      by_cases hj : j < m
      · rw [if_pos hj, if_pos (by omega : j + 1 < m + 1)]
        have harg : start + 1 + (j : Int) = start + ((j : Nat) + 1 : Nat) := by
          push_cast
          ring
        rw [harg]
      · rw [if_neg hj, if_neg (by omega : ¬j + 1 < m + 1)]

theorem buildHashes_spec (cs : ChainSentry) (latest : Int) :
    ∀ n : Nat, n ≤ cs.blocksQueue.length →
      ∃ l : List (Int × String), buildHashes cs latest n = .ok l ∧ l.length = n ∧
        l.map Prod.fst = (List.range n).map
          (fun i : Nat => latest - cs.finalizedBlockDistance - cs.numFinalBlocks + (i : Int)) := by
  intro n
  induction n with
  | zero => intro _; exact ⟨[], rfl, rfl, rfl⟩
  | succ m ih =>
    intro hle
    obtain ⟨l, hl, hlen, hkeys⟩ := ih (Nat.le_of_succ_le hle)
    have hm : m < cs.blocksQueue.length := Nat.lt_of_succ_le hle
    refine ⟨l ++ [(latest - cs.finalizedBlockDistance - cs.numFinalBlocks + (m : Int),
      (cs.blocksQueue.get ⟨m, hm⟩).hash)], ?_, ?_, ?_⟩
    · rw [buildHashes, hl]
      simp [hm]
    · simp [hlen]
    · simp [hkeys, List.range_succ]

theorem catchupGo_ok_length (env : Env) (cs s : ChainSentry) (t : Int)
    (hc : catchupGo env cs t = .ok s) :
    s.blocksQueue.length = cs.blocksQueue.length := by
  rw [catchupGo] at hc
  by_cases he : cs.latestBlockNum = t
  · rw [if_pos he] at hc
    injection hc with h2
    rw [← h2]
  · rw [if_neg he] at hc
    cases happ : appendLoop env (cs.latestBlockNum + 1) (t - cs.latestBlockNum).toNat cs.blocksQueue with
    | ok q =>
      rw [happ] at hc
      rw [finishCatchup] at hc
      by_cases hg : 0 ≤ t - cs.latestBlockNum ∧ t - cs.latestBlockNum ≤ (q.length : Int)
      · rw [if_pos hg] at hc
        injection hc with h2
        have hql := appendLoop_ok_length env _ _ _ _ happ
        rw [← h2]
        simp [List.length_drop, hql]
      · rw [if_neg hg] at hc
        simp at hc
    | fatalExit q => rw [happ] at hc; simp [finishCatchup] at hc
    | panicked q => rw [happ] at hc; simp [finishCatchup] at hc

theorem initGo_ok_length (env : Env) (cs s : ChainSentry) (t : Int)
    (hc : initGo env cs t = .ok s) :
    s.blocksQueue.length = cs.blocksQueue.length + cs.numFinalBlocks.toNat := by
  rw [initGo] at hc
  cases happ : appendLoop env
      (t - (cs.finalizedBlockDistance + cs.numFinalBlocks))
      (t - cs.finalizedBlockDistance - 1 + 1 -
        (t - (cs.finalizedBlockDistance + cs.numFinalBlocks))).toNat
      cs.blocksQueue with
  | ok q =>
    rw [happ] at hc
    rw [finishInit] at hc
    injection hc with h2
    have hql := appendLoop_ok_length env _ _ _ _ happ
    rw [← h2]
    have harith : t - cs.finalizedBlockDistance - 1 + 1 -
        (t - (cs.finalizedBlockDistance + cs.numFinalBlocks)) = cs.numFinalBlocks := by
      ring
    rw [harith] at hql
    simpa using hql
  | fatalExit q => rw [happ] at hc; simp [finishInit] at hc
  | panicked q => rw [happ] at hc; simp [finishInit] at hc

/-! Claim theorems: closed evaluations at the concrete states above. -/

/-- C1: the claim fails on the code.  From the Ready state `csA` (tip `100`,
window `90..92`), a refresh cycle towards observed tip `102` whose fetch of
block `102` fails does not report a failure with the state intact: the block
fetch error hits `log.Fatalln`, aborting the process after block `101` was
already appended (a visible partial mutation, queue length `4`, differing from
the pre-call state).  A failing tip fetch is merely logged; the cycle then
proceeds with `latestBlock = -1` and dies on a negative slice index. -/
theorem refresh_failure_partial_mutation :
    catchupOnFinalizedBlocks (envFailAt 102 102) csA = .fatalExit csAPartial ∧
    csAPartial.blocksQueue.length = csA.blocksQueue.length + 1 ∧
    csAPartial ≠ csA ∧
    catchupOnFinalizedBlocks envTipErr csA = .panicked csA := by
  decide

/-- C2: the claim fails on the code.  A fully successful refresh of `csA`
(tip `100`, window `90..92`) to observed tip `102` fetches blocks `101` and
`102` — the bleeding-edge tip blocks, not the trailing finalized ones — so the
window numbers become `[92, 101, 102]`: not contiguous, and the last number is
`102`, not `tip - finalizedBlockDistance - 1 = 94`. -/
theorem refresh_breaks_contiguity :
    catchupOnFinalizedBlocks (envAllOk 102) csA = .ok csB ∧
    windowNumbers csB = [92, 101, 102] ∧
    contiguousNums (windowNumbers csB) = false ∧
    ¬(windowNumbers csB).getLast? =
        some (csB.latestBlockNum - csB.finalizedBlockDistance - 1) := by
  decide

/-- C3 counterexample: a successful `Init` of a fresh tracker (defaults
`finalizedBlockDistance = 7`, `numFinalBlocks = 3`) against tip `100` leaves a
window of length `3`, not `finalizedBlockDistance + numFinalBlocks = 10`:
the `Init` loop runs from `tip - (distance + numFinal)` to `tip - distance - 1`,
which is exactly `numFinalBlocks` iterations. -/
theorem window_capacity_counterexample :
    Init (envAllOk 100) NewChainSentry = .ok csA ∧
    csA.blocksQueue.length = 3 ∧
    NewChainSentry.finalizedBlockDistance + NewChainSentry.numFinalBlocks = 10 ∧
    ¬(csA.blocksQueue.length : Int) =
        NewChainSentry.finalizedBlockDistance + NewChainSentry.numFinalBlocks := by
  decide

/-- C4: the claim fails on the code.  An `Init` of a fresh tracker against an
endpoint reporting tip `100` whose fetch of block `91` fails never returns an
error: the failure hits `log.Fatalln` (process abort), and at that point the
tip `100` has already been stored by `SetLatestBlockNum` and block `90`
already appended — the tracker is not left in its pre-call state. -/
theorem init_failure_partial_state :
    Init envInitFail NewChainSentry = .fatalExit csInitPartial ∧
    csInitPartial.latestBlockNum = 100 ∧
    csInitPartial.blocksQueue.length = 1 ∧
    csInitPartial ≠ NewChainSentry := by
  decide

/-- C8: the claim fails on the code.  On a fresh (Uninitialized) tracker,
`GetLatestBlockNum` returns the zero value `0` through its error-less
signature, and `GetLatestBlockData` panics indexing the empty queue; neither
fails with a `NotReady` error (no such error exists in the code). -/
theorem uninitialized_reads_no_error :
    GetLatestBlockNum NewChainSentry = 0 ∧
    GetLatestBlockData NewChainSentry = .panicked := by
  decide

/-- C9: the claim fails on the code.  From the Ready state `csA` (tip `100`),
a refresh observing the regressed tip `99` does not fail with a `ReorgDetected`
error: it slices `blocksQueue[-1:]`, a runtime panic (slice bounds out of
range) that kills the refresh goroutine and with it the process.  The heap is
still untouched at the panic point, but no error is ever returned. -/
theorem tip_regression_panics :
    catchupOnFinalizedBlocks (envAllOk 99) csA = .panicked csA := by
  decide

/-- C3 (amended): once Ready, the window length equals `numFinalBlocks` (not
`finalizedBlockDistance + numFinalBlocks`): a successful `Init` of an empty
tracker leaves exactly `numFinalBlocks` blocks, and every refresh cycle that
returns success preserves the window length. -/
theorem window_length_eq_numFinalBlocks (env : Env) (cs s : ChainSentry) :
    (cs.blocksQueue = [] → Init env cs = .ok s →
      s.blocksQueue.length = cs.numFinalBlocks.toNat) ∧
    (catchupOnFinalizedBlocks env cs = .ok s →
      s.blocksQueue.length = cs.blocksQueue.length) := by
  constructor
  · intro hq hinit
    rw [Init] at hinit
    cases hf : fetchLatestBlockNum env with
    | err => rw [hf] at hinit; simp [initDispatch] at hinit
    | ok v =>
      rw [hf] at hinit
      simp only [initDispatch] at hinit
      have hlen := initGo_ok_length env (SetLatestBlockNum cs v) s v hinit
      simpa [SetLatestBlockNum, hq] using hlen
  · intro hc
    rw [catchupOnFinalizedBlocks] at hc
    exact catchupGo_ok_length env cs s _ hc

/-- Witness for the amended C3 at `Init (envAllOk 100) NewChainSentry`. -/
theorem window_length_eq_numFinalBlocks_witness :
    csA.blocksQueue.length = NewChainSentry.numFinalBlocks.toNat :=
  (window_length_eq_numFinalBlocks (envAllOk 100) NewChainSentry csA).1 rfl (by decide)

/-- C5: in any state whose window is at least `numFinalBlocks` long (every
Ready state), `GetLatestBlockData` returns the stored tip together with
exactly `numFinalBlocks` entries whose keys are precisely
`tip - finalizedBlockDistance - numFinalBlocks + i` for `i` in
`[0, numFinalBlocks)` — i.e. `tip - distance - numFinal .. tip - distance - 1`
— computed from the very tip value the call returns, and pairwise distinct. -/
theorem getLatestBlockData_consistent (cs : ChainSentry)
    (hready : cs.numFinalBlocks.toNat ≤ cs.blocksQueue.length) :
    ∃ l : List (Int × String),
      GetLatestBlockData cs = .ok (cs.latestBlockNum, l) ∧
      l.length = cs.numFinalBlocks.toNat ∧
      l.map Prod.fst = (List.range cs.numFinalBlocks.toNat).map
        (fun i : Nat => cs.latestBlockNum - cs.finalizedBlockDistance -
          cs.numFinalBlocks + (i : Int)) ∧
      (l.map Prod.fst).Nodup := by
  obtain ⟨l, hl, hlen, hkeys⟩ :=
    buildHashes_spec cs cs.latestBlockNum cs.numFinalBlocks.toNat hready
  refine ⟨l, ?_, hlen, hkeys, ?_⟩
  · simp [GetLatestBlockData, GetLatestBlockNum, hl]
  · rw [hkeys]
    have hinj : Function.Injective
        (fun i : Nat => cs.latestBlockNum - cs.finalizedBlockDistance -
          cs.numFinalBlocks + (i : Int)) := by
      intro i j hij
      dsimp only at hij
      omega
    exact List.Nodup.map hinj (List.nodup_range _)

/-- Witness for C5 at the Ready state `csA`. -/
theorem getLatestBlockData_consistent_witness :
    ∃ l : List (Int × String),
      GetLatestBlockData csA = .ok (csA.latestBlockNum, l) ∧
      l.length = csA.numFinalBlocks.toNat ∧
      l.map Prod.fst = (List.range csA.numFinalBlocks.toNat).map
        (fun i : Nat => csA.latestBlockNum - csA.finalizedBlockDistance -
          csA.numFinalBlocks + (i : Int)) ∧
      (l.map Prod.fst).Nodup :=
  getLatestBlockData_consistent csA (by decide)

/-- C6: a refresh cycle whose observed tip equals the stored tip is a no-op
returning success, in any state: the tip and the window are exactly the
pre-call ones, and a second identical call leaves the state identical again. -/
theorem refresh_noop_idempotent (env : Env) (cs : ChainSentry)
    (htip : env.tipOk = true) (heq : env.tipVal = cs.latestBlockNum) :
    catchupOnFinalizedBlocks env cs = .ok cs ∧
    ∀ s : ChainSentry, catchupOnFinalizedBlocks env cs = .ok s →
      catchupOnFinalizedBlocks env s = .ok s := by
  have h1 : catchupOnFinalizedBlocks env cs = .ok cs := by
    rw [catchupOnFinalizedBlocks, fetchLatestBlockNum, if_pos htip]
    simp [reportedTip, catchupGo, heq]
  refine ⟨h1, ?_⟩
  intro s hs
  rw [h1] at hs
  injection hs with h2
  subst h2
  exact h1

/-- Witness for C6 at `csA` with the chain still reporting tip `100`. -/
theorem refresh_noop_idempotent_witness :
    catchupOnFinalizedBlocks (envAllOk 100) csA = .ok csA :=
  (refresh_noop_idempotent (envAllOk 100) csA rfl rfl).1

/-- C7: a successful `Init` of an empty tracker against a healthy endpoint
reporting `tip0` stores `tip = tip0` (so `GetLatestBlockNum` returns `tip0`)
and fills the window with exactly the blocks fetched for the numbers
`tip0 - finalizedBlockDistance - numFinalBlocks + i`, `i` in
`[0, numFinalBlocks)` — that is `tip0 - distance - numFinal ..
tip0 - distance - 1` — in ascending order of block number. -/
theorem init_populates_window (env : Env) (cs : ChainSentry)
    (hq : cs.blocksQueue = []) (htip : env.tipOk = true)
    (hb : ∀ m : Int, env.blockOk m = true) :
    ∃ s : ChainSentry, Init env cs = .ok s ∧
      s.latestBlockNum = env.tipVal ∧
      GetLatestBlockNum s = env.tipVal ∧
      s.blocksQueue.length = cs.numFinalBlocks.toNat ∧
      ∀ i : Nat, s.blocksQueue[i]? =
        if i < cs.numFinalBlocks.toNat then
          some (env.blockAt (env.tipVal - cs.finalizedBlockDistance -
            cs.numFinalBlocks + (i : Int)))
        else none := by
  have hfetch : fetchLatestBlockNum env = .ok env.tipVal := by
    rw [fetchLatestBlockNum, if_pos htip]
  have hinit : Init env cs = .ok { cs with
      latestBlockNum := env.tipVal,
      blocksQueue := blockRange env
        (env.tipVal - (cs.finalizedBlockDistance + cs.numFinalBlocks))
        cs.numFinalBlocks.toNat } := by
    rw [Init, hfetch]
    simp only [initDispatch, initGo, SetLatestBlockNum, hq]
    rw [show env.tipVal - cs.finalizedBlockDistance - 1 + 1 -
        (env.tipVal - (cs.finalizedBlockDistance + cs.numFinalBlocks)) =
        cs.numFinalBlocks from by ring]
    rw [appendLoop_all_ok env hb]
    simp [finishInit]
  refine ⟨_, hinit, rfl, rfl, ?_, ?_⟩
  · exact blockRange_length env _ _
  · intro i
    show (blockRange env
        (env.tipVal - (cs.finalizedBlockDistance + cs.numFinalBlocks))
        cs.numFinalBlocks.toNat)[i]? = _
    rw [blockRange_getElem env]
    rw [show env.tipVal - (cs.finalizedBlockDistance + cs.numFinalBlocks) =
        env.tipVal - cs.finalizedBlockDistance - cs.numFinalBlocks from by ring]

/-- Witness for C7: `Init` of a fresh tracker against tip `100`. -/
theorem init_populates_window_witness :
    ∃ s : ChainSentry, Init (envAllOk 100) NewChainSentry = .ok s ∧
      s.latestBlockNum = (envAllOk 100).tipVal ∧
      GetLatestBlockNum s = (envAllOk 100).tipVal ∧
      s.blocksQueue.length = NewChainSentry.numFinalBlocks.toNat ∧
      ∀ i : Nat, s.blocksQueue[i]? =
        if i < NewChainSentry.numFinalBlocks.toNat then
          some ((envAllOk 100).blockAt ((envAllOk 100).tipVal -
            NewChainSentry.finalizedBlockDistance -
            NewChainSentry.numFinalBlocks + (i : Int)))
        else none :=
  init_populates_window (envAllOk 100) NewChainSentry rfl rfl (fun _ => rfl)

/-- C10: from any state, a refresh cycle observing a strictly larger tip with
all fetches succeeding returns success, appends exactly `newTip - tip` freshly
fetched records at the tail, then removes exactly `newTip - tip` records from
the head, leaving the window length exactly its pre-call value. -/
theorem refresh_advance_preserves_length (env : Env) (cs : ChainSentry)
    (htip : env.tipOk = true) (hlt : cs.latestBlockNum < env.tipVal)
    (hb : ∀ m : Int, env.blockOk m = true) :
    ∃ s : ChainSentry, catchupOnFinalizedBlocks env cs = .ok s ∧
      s.latestBlockNum = env.tipVal ∧
      s.blocksQueue.length = cs.blocksQueue.length ∧
      s.blocksQueue = (cs.blocksQueue ++
        blockRange env (cs.latestBlockNum + 1)
          (env.tipVal - cs.latestBlockNum).toNat).drop
        (env.tipVal - cs.latestBlockNum).toNat ∧
      (blockRange env (cs.latestBlockNum + 1)
        (env.tipVal - cs.latestBlockNum).toNat).length
        = (env.tipVal - cs.latestBlockNum).toNat := by
  have hfetch : fetchLatestBlockNum env = .ok env.tipVal := by
    rw [fetchLatestBlockNum, if_pos htip]
  have hlen := blockRange_length env (env.tipVal - cs.latestBlockNum).toNat
    (cs.latestBlockNum + 1)
  have hg : 0 ≤ env.tipVal - cs.latestBlockNum ∧
      env.tipVal - cs.latestBlockNum ≤
        ((cs.blocksQueue ++ blockRange env (cs.latestBlockNum + 1)
          (env.tipVal - cs.latestBlockNum).toNat).length : Int) := by
    constructor
    · omega
    · rw [List.length_append, hlen]
      push_cast
      omega
  have hcall : catchupOnFinalizedBlocks env cs = .ok { cs with
      blocksQueue := (cs.blocksQueue ++ blockRange env (cs.latestBlockNum + 1)
        (env.tipVal - cs.latestBlockNum).toNat).drop
        (env.tipVal - cs.latestBlockNum).toNat,
      latestBlockNum := env.tipVal } := by
    rw [catchupOnFinalizedBlocks, hfetch]
    simp only [reportedTip]
    rw [catchupGo, if_neg (by omega : ¬cs.latestBlockNum = env.tipVal)]
    rw [appendLoop_all_ok env hb]
    simp only [finishCatchup]
    rw [if_pos hg]
  refine ⟨_, hcall, rfl, ?_, rfl, hlen⟩
  simp only [List.length_drop, List.length_append, hlen]
  omega

/-- Witness for C10: refresh of `csA` (tip `100`) to observed tip `102`. -/
theorem refresh_advance_preserves_length_witness :
    ∃ s : ChainSentry, catchupOnFinalizedBlocks (envAllOk 102) csA = .ok s ∧
      s.latestBlockNum = (envAllOk 102).tipVal ∧
      s.blocksQueue.length = csA.blocksQueue.length ∧
      s.blocksQueue = (csA.blocksQueue ++
        blockRange (envAllOk 102) (csA.latestBlockNum + 1)
          ((envAllOk 102).tipVal - csA.latestBlockNum).toNat).drop
        ((envAllOk 102).tipVal - csA.latestBlockNum).toNat ∧
      (blockRange (envAllOk 102) (csA.latestBlockNum + 1)
        ((envAllOk 102).tipVal - csA.latestBlockNum).toNat).length
        = ((envAllOk 102).tipVal - csA.latestBlockNum).toNat :=
  refresh_advance_preserves_length (envAllOk 102) csA rfl (by decide) (fun _ => rfl)

end Chainsentry
